import Mathlib

/-!
Verification of the GPU template-matching library (`src/lib.rs`) against its
natural-language specification.

Shallow embedding notes:
* `u32` values are modelled as `Nat`; the wrapping `u32` arithmetic of release
  builds is made explicit with `u32_wrap` / `u32_sub` (reduction modulo `2^32`).
* `f32` sample values are modelled as `Option ℚ`: `none` is NaN (every ordered
  comparison involving it is false, as in IEEE-754), `some q` is a finite value
  represented exactly.  The infinities are not needed by any claim and are not
  modelled.  `f32::MAX = (2^24 - 1) * 2^104` and `f32::MIN = -f32::MAX` are
  exact rationals.
* GPU resources (`wgpu` buffers, bind groups) are modelled by records carrying
  an allocation counter `id` — resource identity — plus, for buffers, their
  contents as a list of samples.  `wgpu` zero-initializes newly created
  buffers, which the model mirrors.
* The device/queue/instance/adapter handles, the shader module and the layout
  objects created in `TemplateMatcher::new` carry no observable state for any
  claim and are omitted from the state record.
* Queue submission (`queue.submit`) is modelled by returning a `Submission`
  record describing the dispatched workgroup grid, and by eagerly applying the
  submitted commands' effects (compute pass, result→staging copy) to the
  buffer contents: the source guarantees queue-order execution of uploads and
  dispatches, so eager application is equivalent for every observable.
* Rust panics (`Option::unwrap` on `None`) are modelled by returning `none`
  from the embedded function.
-/

/-- The modulus of `u32` arithmetic. -/
def U32_MOD : Nat := 4294967296

/-- Reduction of a `Nat` to the `u32` range, the wrapping of release-mode Rust. -/
def u32_wrap (n : Nat) : Nat := n % U32_MOD

/-- Wrapping `u32` subtraction (`a - b` in release-mode Rust), for `a b < 2^32`. -/
def u32_sub (a b : Nat) : Nat := (a + U32_MOD - b) % U32_MOD

/-- Model of `f32` sample values: `none` is NaN, `some q` a finite value. -/
abbrev F32 : Type := Option ℚ

/-- The rational value of `f32::MAX`, namely `(2 - 2^-23) * 2^127`, written as
the integer literal `(2^24 - 1) * 2^104` so that it reduces in the kernel. -/
def f32_maxQ : ℚ := 340282346638528859811704183484516925440

/-- Model of `f32::MAX`. -/
def f32_max : F32 := some f32_maxQ

/-- Model of `f32::MIN = -f32::MAX`. -/
def f32_min : F32 := some (-f32_maxQ)

/-- Model of the literal `0.0`. -/
def f32_zero : F32 := some 0

/-- IEEE-754 `<` on `f32`: false whenever either side is NaN. -/
def f32_lt (a b : F32) : Bool :=
  match a, b with
  | some x, some y => decide (x < y)
  | _, _ => false

/-- IEEE-754 `>` on `f32`: false whenever either side is NaN. -/
def f32_gt (a b : F32) : Bool :=
  match a, b with
  | some x, some y => decide (y < x)
  | _, _ => false

/-- `MatchTemplateMethod` from the source: the two scoring methods. -/
inductive MatchTemplateMethod where
  | SumOfAbsoluteDifferences
  | SumOfSquaredDifferences
  deriving DecidableEq

/-- The two compute-shader entry points selected by the method
(`"main_sad"` / `"main_ssd"` in the source). -/
inductive EntryPoint where
  | main_sad
  | main_ssd
  deriving DecidableEq

/-- `Image` from the source: a dense row-major surface of `f32` samples with
explicit width and height (`data: Cow<[f32]>` modelled as a list). -/
structure Image where
  data : List F32
  width : Nat
  height : Nat
  deriving DecidableEq

/-- `Extremes` from the source. -/
structure Extremes where
  min_value : F32
  max_value : F32
  min_value_location : Nat × Nat
  max_value_location : Nat × Nat
  deriving DecidableEq

/-- `ShaderUniforms` from the source: the four dimension integers uploaded to
the uniform buffer. -/
structure ShaderUniforms where
  input_width : Nat
  input_height : Nat
  template_width : Nat
  template_height : Nat
  deriving DecidableEq

/-- A GPU buffer: an allocation identity plus its current contents.  A fresh
`id` is drawn from the matcher's allocation counter at each (re)creation, so
two buffers allocated at different times never share an `id`. -/
structure GpuBuffer where
  id : Nat
  data : List F32
  deriving DecidableEq

/-- A bind group: its allocation identity and the ids of the buffers bound at
bindings 0 (input), 1 (template) and 2 (result); binding 3 is always the
matcher's unique uniform buffer. -/
structure BindGroup where
  id : Nat
  binding0 : Nat
  binding1 : Nat
  binding2 : Nat
  deriving DecidableEq

/-- The command batch submitted to the queue by one `match_template` call:
the compute-pass workgroup grid passed to `dispatch_workgroups`.  (The
result→staging copy it also contains is applied directly to the modelled
buffer contents.) -/
structure Submission where
  workgroups : Nat × Nat × Nat
  deriving DecidableEq

/-- The initial state of the scan of `find_extremes` (source lines 39-42). -/
def feInit : Extremes :=
  { min_value := f32_max
    max_value := f32_min
    min_value_location := (0, 0)
    max_value_location := (0, 0) }

/-- One iteration of the inner loop of `find_extremes` at `(y, x)` (source
lines 46-57): reads `data[(y * width) + x]` (out-of-bounds indexing panics,
modelled by `none`) and updates the running minimum and maximum on a strict
comparison win. -/
def fe_update (input : Image) (st : Extremes) (yx : Nat × Nat) : Option Extremes :=
  let idx := yx.1 * input.width + yx.2
  match input.data.get? idx with
  | none => none
  | some value =>
    let st := if f32_lt value st.min_value then
        { st with min_value := value, min_value_location := (yx.2, yx.1) }
      else st
    let st := if f32_gt value st.max_value then
        { st with max_value := value, max_value_location := (yx.2, yx.1) }
      else st
    some st

/-- `find_extremes` from the source: scans every element in row-major order
(`for y in 0..height { for x in 0..width { .. } }`). -/
def find_extremes (input : Image) : Option Extremes :=
  (List.range input.height).foldlM
    (fun st y => (List.range input.width).foldlM (fun st x => fe_update input st (y, x)) st)
    feInit

/-- Overwrite the prefix of a buffer's contents with new data, keeping the
buffer's length: the byte semantics of `queue.write_buffer(buffer, 0, data)`
and of a shader/copy write into a fixed-size buffer. -/
def storeInto : List F32 → List F32 → List F32
  | [], _ => []
  | o :: olds, new =>
    match new with
    | [] => o :: olds
    | v :: vs => v :: storeInto olds vs

/-- Read a sample as a rational, treating out-of-range reads and NaN as `0`. -/
def f32get (l : List F32) (i : Nat) : ℚ := (l.getD i (some 0)).getD 0

/-- Modelled from the spec: the compute kernel (`shaders/matching.wgsl`) is not
among the sources; §4.6 of the spec gives its semantics — for every output
coordinate `(x, y)`, SumOfAbsoluteDifferences computes
`Σ |input[x+i, y+j] − template[i, j]|` and SumOfSquaredDifferences computes
`Σ (input[x+i, y+j] − template[i, j])²` over all template offsets `(i, j)`,
with the addressing dimensions taken from the uniform buffer.  Arithmetic is
exact rational arithmetic here; kernel float rounding is not modelled (no
claim depends on the computed sample values). -/
def gpuCompute (u : ShaderUniforms) (inputData templData : List F32)
    (entry : EntryPoint) : List F32 :=
  let rw := u.input_width - u.template_width + 1
  let rh := u.input_height - u.template_height + 1
  (List.range (rh * rw)).map fun o =>
    let y := o / rw
    let x := o % rw
    some (((List.range u.template_height).map fun j =>
      (((List.range u.template_width).map fun i =>
        let d := f32get inputData ((y + j) * u.input_width + (x + i)) -
          f32get templData (j * u.template_width + i)
        match entry with
        | .main_ssd => d * d
        | .main_sad => |d|).sum)).sum)

/-- Floor of the base-2 logarithm of a `u32` value, computed without
well-founded recursion so that it reduces in the kernel. -/
def u32Log2 (n : Nat) : Nat :=
  ((List.range 32).filter fun k => decide (2 ^ k ≤ n)).length - 1

/-- Round-to-nearest-even conversion of a `u32` value to `f32` (24-bit
significand): the exact semantics of Rust's `n as f32` for `n < 2^32`. -/
def roundF32Nat (n : Nat) : Nat :=
  if n ≤ 2 ^ 24 then n
  else
    let shift := u32Log2 n - 23
    let q := n / 2 ^ shift
    let r := n % 2 ^ shift
    let half := 2 ^ (shift - 1)
    let q' := if half < r ∨ (r = half ∧ q % 2 = 1) then q + 1 else q
    q' * 2 ^ shift

/-- The per-axis workgroup count of the dispatch, the source expression
`(n as f32 / 16.0).ceil() as u32`: the `u32` is rounded to `f32`
(`roundF32Nat`), division by the power of two `16.0` and `ceil` are exact, and
the final cast truncates exactly (the value is at most `2^28`). -/
def dispatchGridDim (n : Nat) : Nat := (roundF32Nat n + 15) / 16

/-- The derived result dimensions (source lines 381-382), in wrapping `u32`
arithmetic: `input - template + 1` per axis. -/
def derivedSize (input_size template_size : Nat × Nat) : Nat × Nat :=
  (u32_wrap (u32_sub input_size.1 template_size.1 + 1),
   u32_wrap (u32_sub input_size.2 template_size.2 + 1))

/-- `TemplateMatcher` from the source: the cached method/pipeline, the
remembered dimensions, the uniform-buffer contents, the optional GPU resources
and the outstanding-result flag, plus the allocation counter modelling GPU
resource identity. -/
structure TemplateMatcher where
  last_pipeline : Option EntryPoint
  last_method : Option MatchTemplateMethod
  last_input_size : Nat × Nat
  last_template_size : Nat × Nat
  last_result_size : Nat × Nat
  uniform_buffer : ShaderUniforms
  input_buffer : Option GpuBuffer
  template_buffer : Option GpuBuffer
  result_buffer : Option GpuBuffer
  staging_buffer : Option GpuBuffer
  bind_group : Option BindGroup
  matching_ongoing : Bool
  next_buffer_id : Nat
  deriving DecidableEq

/-- `TemplateMatcher::new`: no cached resources, zeroed remembered sizes; the
uniform buffer is created without contents and `wgpu` zero-initializes it. -/
def TemplateMatcher.new : TemplateMatcher :=
  { last_pipeline := none
    last_method := none
    last_input_size := (0, 0)
    last_template_size := (0, 0)
    last_result_size := (0, 0)
    uniform_buffer := ⟨0, 0, 0, 0⟩
    input_buffer := none
    template_buffer := none
    result_buffer := none
    staging_buffer := none
    bind_group := none
    matching_ongoing := false
    next_buffer_id := 0 }

/-- `TemplateMatcher::wait_for_result` (source lines 263-291).  `mapOk` is the
environment's answer to the asynchronous `map_async` request: on success the
staging buffer's mapped bytes are reinterpreted as `f32`s; on failure a
zero-filled vector of `(result_width * result_height)` (u32 product) samples is
produced instead.  Returns `none` for the panic of `staging_buffer.unwrap()`
when a matching is ongoing but no staging buffer exists. -/
def TemplateMatcher.wait_for_result (s : TemplateMatcher) (mapOk : Bool) :
    Option (Option Image × TemplateMatcher) :=
  if s.matching_ongoing = false then some (none, s)
  else
    let s := { s with matching_ongoing := false }
    let rw := s.last_result_size.1
    let rh := s.last_result_size.2
    match s.staging_buffer with
    | none => none
    | some buf =>
      let result : List F32 :=
        if mapOk then buf.data
        else List.replicate (u32_wrap (rw * rh)) f32_zero
      some (some ⟨result, rw, rh⟩, s)

/-- The pipeline-cache step of `match_template` (source lines 309-325): rebuild
the compute pipeline when absent or built for a different method, otherwise
reuse it.  Returns the state and the entry point of the pipeline now bound. -/
def ensure_pipeline (s : TemplateMatcher) (method : MatchTemplateMethod) :
    TemplateMatcher × EntryPoint :=
  let entry : EntryPoint := match method with
    | .SumOfAbsoluteDifferences => .main_sad
    | .SumOfSquaredDifferences => .main_ssd
  match s.last_pipeline with
  | some p =>
    if s.last_method ≠ some method then
      ({ s with last_method := some method, last_pipeline := some entry }, entry)
    else (s, p)
  | none => ({ s with last_method := some method, last_pipeline := some entry }, entry)

/-- The input-buffer step of `match_template` (source lines 329-348): if no
input buffer exists or the input dimensions changed, allocate a fresh buffer
initialized with the input data (and remember the new size); otherwise
overwrite the existing buffer's contents in place.  Returns the state, the
buffer now bound, and whether it was rebuilt. -/
def ensure_input_buffer (s : TemplateMatcher) (input : Image) :
    TemplateMatcher × GpuBuffer × Bool :=
  let input_size := (input.width, input.height)
  match s.input_buffer with
  | some buf =>
    if s.last_input_size ≠ input_size then
      let nb : GpuBuffer := ⟨s.next_buffer_id, input.data⟩
      ({ s with last_input_size := input_size, input_buffer := some nb,
                next_buffer_id := s.next_buffer_id + 1 }, nb, true)
    else
      let nb : GpuBuffer := { buf with data := storeInto buf.data input.data }
      ({ s with input_buffer := some nb }, nb, false)
  | none =>
    let nb : GpuBuffer := ⟨s.next_buffer_id, input.data⟩
    ({ s with last_input_size := input_size, input_buffer := some nb,
              next_buffer_id := s.next_buffer_id + 1 }, nb, true)

/-- The template-buffer step of `match_template` (source lines 350-379): same
policy as the input buffer, except that on a rebuild the uniform buffer is
first rewritten with the four current dimension integers. -/
def ensure_template_buffer (s : TemplateMatcher) (input template : Image) :
    TemplateMatcher × GpuBuffer × Bool :=
  let template_size := (template.width, template.height)
  match s.template_buffer with
  | some buf =>
    if s.last_template_size ≠ template_size then
      let nb : GpuBuffer := ⟨s.next_buffer_id, template.data⟩
      ({ s with uniform_buffer :=
                  ⟨input.width, input.height, template.width, template.height⟩,
                last_template_size := template_size, template_buffer := some nb,
                next_buffer_id := s.next_buffer_id + 1 }, nb, true)
    else
      let nb : GpuBuffer := { buf with data := storeInto buf.data template.data }
      ({ s with template_buffer := some nb }, nb, false)
  | none =>
    let nb : GpuBuffer := ⟨s.next_buffer_id, template.data⟩
    ({ s with uniform_buffer :=
                ⟨input.width, input.height, template.width, template.height⟩,
              last_template_size := template_size, template_buffer := some nb,
              next_buffer_id := s.next_buffer_id + 1 }, nb, true)

/-- Everything `TemplateMatcher::match_template` does after the initial
discard of an uncollected result (source lines 306-456): pipeline cache,
buffer lifecycle, result/staging/bind-group rebuild when any buffer changed,
and the submission of the compute dispatch plus result→staging copy.  The
submitted commands' effects on the result and staging contents are applied
directly; `none` models the panic of the `unwrap`s on absent resources. -/
def match_template_core (s : TemplateMatcher) (input template : Image)
    (method : MatchTemplateMethod) : Option (Submission × TemplateMatcher) := do
  let (s, entry) := ensure_pipeline s method
  let (s, ibuf, inputChanged) := ensure_input_buffer s input
  let (s, tbuf, templChanged) := ensure_template_buffer s input template
  let changed := inputChanged || templChanged
  let result_width := (derivedSize (input.width, input.height)
    (template.width, template.height)).1
  let result_height := (derivedSize (input.width, input.height)
    (template.width, template.height)).2
  let count := u32_wrap (result_width * result_height)
  let (s, rbuf, sbuf) ←
    if changed then
      let rbuf : GpuBuffer := ⟨s.next_buffer_id, List.replicate count f32_zero⟩
      let sbuf : GpuBuffer := ⟨s.next_buffer_id + 1, List.replicate count f32_zero⟩
      let bg : BindGroup := ⟨s.next_buffer_id + 2, ibuf.id, tbuf.id, rbuf.id⟩
      some ({ s with last_result_size := (result_width, result_height),
                     result_buffer := some rbuf, staging_buffer := some sbuf,
                     bind_group := some bg,
                     next_buffer_id := s.next_buffer_id + 3 }, rbuf, sbuf)
    else do
      let rbuf ← s.result_buffer
      let sbuf ← s.staging_buffer
      some (s, rbuf, sbuf)
  let _ ← s.bind_group
  let rdata := storeInto rbuf.data (gpuCompute s.uniform_buffer ibuf.data tbuf.data entry)
  let sdata := storeInto sbuf.data rdata
  some (⟨(dispatchGridDim result_width, dispatchGridDim result_height, 1)⟩,
    { s with result_buffer := some { rbuf with data := rdata },
             staging_buffer := some { sbuf with data := sdata },
             matching_ongoing := true })

/-- `TemplateMatcher::match_template` (source lines 295-457): if a previous
dispatch's result was never retrieved, retrieve and drop it first, then run
the core.  `mapOk` is the environment's mapping outcome for that internal
retrieval (it does not influence the resulting state). -/
def TemplateMatcher.match_template (s : TemplateMatcher) (input template : Image)
    (method : MatchTemplateMethod) (mapOk : Bool) : Option (Submission × TemplateMatcher) := do
  let s ← if s.matching_ongoing then (s.wait_for_result mapOk).map Prod.snd else some s
  match_template_core s input template method

/-- The free convenience function `match_template` (source lines 27-35):
build a fresh matcher, dispatch once and block for the result, unwrapping it. -/
def match_template (input template : Image) (method : MatchTemplateMethod)
    (mapOk : Bool) : Option Image := do
  let (_, m) ← TemplateMatcher.new.match_template input template method mapOk
  let (r, _) ← m.wait_for_result mapOk
  r

/-- Boolean id-bound check for an optional buffer. -/
def bufIdLt (o : Option GpuBuffer) (n : Nat) : Bool :=
  o.all fun b => decide (b.id < n)

/-- Well-formedness of a matcher state.  Holds for `TemplateMatcher.new` and is
preserved by every operation: every live resource's id is below the allocation
counter; once input and template buffers exist, so do the result buffer, the
staging buffer and the bind group, and the remembered result size is the one
derived from the remembered input/template sizes; an ongoing matching implies a
staging buffer exists; and the staging buffer holds exactly
`result_width * result_height` (u32 product) samples. -/
def wfB (s : TemplateMatcher) : Bool :=
  bufIdLt s.input_buffer s.next_buffer_id &&
  bufIdLt s.template_buffer s.next_buffer_id &&
  bufIdLt s.result_buffer s.next_buffer_id &&
  bufIdLt s.staging_buffer s.next_buffer_id &&
  (s.bind_group.all fun g => decide (g.id < s.next_buffer_id)) &&
  (!(s.input_buffer.isSome && s.template_buffer.isSome) ||
    (s.result_buffer.isSome && s.staging_buffer.isSome && s.bind_group.isSome &&
      decide (s.last_result_size = derivedSize s.last_input_size s.last_template_size))) &&
  (!s.matching_ongoing || s.staging_buffer.isSome) &&
  (s.staging_buffer.all fun b =>
    decide (b.data.length = u32_wrap (s.last_result_size.1 * s.last_result_size.2)))

/-- The buffer-lifecycle contract of one `match_template` call from state `s`
to state `s'`: each of the input and template buffers is freshly allocated
exactly when absent or when its dimensions changed (otherwise overwritten in
place, identity preserved), and the result buffer, staging buffer and bind
group are freshly allocated exactly when the input or template buffer was
rebuilt (otherwise reused with identity unchanged). -/
def rebuildPolicy (s s' : TemplateMatcher) (input template : Image) : Prop :=
  ((s.input_buffer = none ∨ s.last_input_size ≠ (input.width, input.height)) →
    ∃ nb, s'.input_buffer = some nb ∧ nb.data = input.data ∧
      ∀ b₀, s.input_buffer = some b₀ → nb.id ≠ b₀.id) ∧
  (¬(s.input_buffer = none ∨ s.last_input_size ≠ (input.width, input.height)) →
    ∃ b₀, s.input_buffer = some b₀ ∧
      s'.input_buffer = some { b₀ with data := storeInto b₀.data input.data }) ∧
  ((s.template_buffer = none ∨ s.last_template_size ≠ (template.width, template.height)) →
    ∃ nb, s'.template_buffer = some nb ∧ nb.data = template.data ∧
      ∀ b₀, s.template_buffer = some b₀ → nb.id ≠ b₀.id) ∧
  (¬(s.template_buffer = none ∨ s.last_template_size ≠ (template.width, template.height)) →
    ∃ b₀, s.template_buffer = some b₀ ∧
      s'.template_buffer = some { b₀ with data := storeInto b₀.data template.data }) ∧
  (((s.input_buffer = none ∨ s.last_input_size ≠ (input.width, input.height)) ∨
    (s.template_buffer = none ∨ s.last_template_size ≠ (template.width, template.height))) →
    (∃ nb, s'.result_buffer = some nb ∧ ∀ b₀, s.result_buffer = some b₀ → nb.id ≠ b₀.id) ∧
    (∃ nb, s'.staging_buffer = some nb ∧ ∀ b₀, s.staging_buffer = some b₀ → nb.id ≠ b₀.id) ∧
    (∃ g, s'.bind_group = some g ∧ ∀ g₀, s.bind_group = some g₀ → g.id ≠ g₀.id)) ∧
  (¬((s.input_buffer = none ∨ s.last_input_size ≠ (input.width, input.height)) ∨
     (s.template_buffer = none ∨ s.last_template_size ≠ (template.width, template.height))) →
    s'.result_buffer.map GpuBuffer.id = s.result_buffer.map GpuBuffer.id ∧
    s'.staging_buffer.map GpuBuffer.id = s.staging_buffer.map GpuBuffer.id ∧
    s'.bind_group = s.bind_group)

/-- A well-formed matcher state with an outstanding dispatch, used to witness
the mapping-failure behavior. -/
def demoOngoing : TemplateMatcher :=
  { TemplateMatcher.new with
    matching_ongoing := true
    staging_buffer := some ⟨0, []⟩
    next_buffer_id := 1 }

/-- A 4×4 input surface. -/
def c1_input_a : Image := ⟨List.replicate 16 f32_zero, 4, 4⟩

/-- An 8×8 input surface. -/
def c1_input_b : Image := ⟨List.replicate 64 f32_zero, 8, 8⟩

/-- A 2×2 template surface. -/
def c1_template : Image := ⟨List.replicate 4 f32_zero, 2, 2⟩

/-- A 65536×65536 input surface with `2^32` samples, whose result element
count against a 1×1 template wraps the `u32` product to `0`. -/
def bigWrapInput : Image := ⟨List.replicate 4294967296 f32_zero, 65536, 65536⟩

/-- A valid 1×1 template surface. -/
def oneByOne : Image := ⟨[f32_zero], 1, 1⟩

/-- The 3×3 example surface of the spec's §8 test list. -/
def c7_example : Image :=
  ⟨[some 5, some 1, some 9, some 1, some 3, some 2, some 9, some 0, some 7], 3, 3⟩

/-- The rational sample values of `c7_example` in row-major order. -/
def c7_vals : List ℚ := [5, 1, 9, 1, 3, 2, 9, 0, 7]

/-- Model of an `f32` NaN. -/
def f32_nan : F32 := none

def fe_update_pure (vals : List ℚ) (w : Nat) (st : Extremes) (yx : Nat × Nat) : Extremes :=
  let value : F32 := some (vals.getD (yx.1 * w + yx.2) 0)
  let st := if f32_lt value st.min_value then
      { st with min_value := value, min_value_location := (yx.2, yx.1) }
    else st
  let st := if f32_gt value st.max_value then
      { st with max_value := value, max_value_location := (yx.2, yx.1) }
    else st
  st

def stepMin (vals : List ℚ) (p : ℚ × Nat) (i : Nat) : ℚ × Nat :=
  if vals.getD i 0 < p.1 then (vals.getD i 0, i) else p

def stepMax (vals : List ℚ) (p : ℚ × Nat) (i : Nat) : ℚ × Nat :=
  if p.1 < vals.getD i 0 then (vals.getD i 0, i) else p

def stepMM (vals : List ℚ) (st : (ℚ × Nat) × (ℚ × Nat)) (i : Nat) : (ℚ × Nat) × (ℚ × Nat) :=
  (stepMin vals st.1 i, stepMax vals st.2 i)

def encodeExt (w : Nat) (st : (ℚ × Nat) × (ℚ × Nat)) : Extremes :=
  ⟨some st.1.1, some st.2.1, (st.1.2 % w, st.1.2 / w), (st.2.2 % w, st.2.2 / w)⟩

def pairRows (w : Nat) : List Nat → List (Nat × Nat)
  | [] => []
  | y :: ys => ((List.range w).map fun x => (y, x)) ++ pairRows w ys

theorem ensure_pipeline_state (s : TemplateMatcher) (m : MatchTemplateMethod) :
    (ensure_pipeline s m).1.last_input_size = s.last_input_size ∧
    (ensure_pipeline s m).1.last_template_size = s.last_template_size ∧
    (ensure_pipeline s m).1.last_result_size = s.last_result_size ∧
    (ensure_pipeline s m).1.uniform_buffer = s.uniform_buffer ∧
    (ensure_pipeline s m).1.input_buffer = s.input_buffer ∧
    (ensure_pipeline s m).1.template_buffer = s.template_buffer ∧
    (ensure_pipeline s m).1.result_buffer = s.result_buffer ∧
    (ensure_pipeline s m).1.staging_buffer = s.staging_buffer ∧
    (ensure_pipeline s m).1.bind_group = s.bind_group ∧
    (ensure_pipeline s m).1.matching_ongoing = s.matching_ongoing ∧
    (ensure_pipeline s m).1.next_buffer_id = s.next_buffer_id := by
  unfold ensure_pipeline
  rcases s.last_pipeline with _ | p
  · simp
  · simp only []
    split <;> simp

theorem ensure_input_buffer_spec (s : TemplateMatcher) (input : Image) :
    (ensure_input_buffer s input).1.last_pipeline = s.last_pipeline ∧
    (ensure_input_buffer s input).1.last_method = s.last_method ∧
    (ensure_input_buffer s input).1.last_template_size = s.last_template_size ∧
    (ensure_input_buffer s input).1.last_result_size = s.last_result_size ∧
    (ensure_input_buffer s input).1.uniform_buffer = s.uniform_buffer ∧
    (ensure_input_buffer s input).1.template_buffer = s.template_buffer ∧
    (ensure_input_buffer s input).1.result_buffer = s.result_buffer ∧
    (ensure_input_buffer s input).1.staging_buffer = s.staging_buffer ∧
    (ensure_input_buffer s input).1.bind_group = s.bind_group ∧
    (ensure_input_buffer s input).1.matching_ongoing = s.matching_ongoing ∧
    (ensure_input_buffer s input).1.input_buffer = some (ensure_input_buffer s input).2.1 ∧
    (ensure_input_buffer s input).1.last_input_size = (input.width, input.height) ∧
    ((ensure_input_buffer s input).2.2 = true →
      (ensure_input_buffer s input).2.1 = ⟨s.next_buffer_id, input.data⟩ ∧
      (ensure_input_buffer s input).1.next_buffer_id = s.next_buffer_id + 1) ∧
    ((ensure_input_buffer s input).2.2 = false →
      (ensure_input_buffer s input).1.next_buffer_id = s.next_buffer_id ∧
      s.last_input_size = (input.width, input.height) ∧
      ∃ b₀, s.input_buffer = some b₀ ∧
        (ensure_input_buffer s input).2.1 = { b₀ with data := storeInto b₀.data input.data }) ∧
    ((ensure_input_buffer s input).2.2 = false ↔
      (s.input_buffer ≠ none ∧ s.last_input_size = (input.width, input.height))) := by
  unfold ensure_input_buffer
  rcases h : s.input_buffer with _ | b <;> simp [h]
  split
  · simp_all
  · simp_all

theorem ensure_template_buffer_spec (s : TemplateMatcher) (input template : Image) :
    (ensure_template_buffer s input template).1.last_pipeline = s.last_pipeline ∧
    (ensure_template_buffer s input template).1.last_method = s.last_method ∧
    (ensure_template_buffer s input template).1.last_input_size = s.last_input_size ∧
    (ensure_template_buffer s input template).1.last_result_size = s.last_result_size ∧
    (ensure_template_buffer s input template).1.input_buffer = s.input_buffer ∧
    (ensure_template_buffer s input template).1.result_buffer = s.result_buffer ∧
    (ensure_template_buffer s input template).1.staging_buffer = s.staging_buffer ∧
    (ensure_template_buffer s input template).1.bind_group = s.bind_group ∧
    (ensure_template_buffer s input template).1.matching_ongoing = s.matching_ongoing ∧
    (ensure_template_buffer s input template).1.template_buffer =
      some (ensure_template_buffer s input template).2.1 ∧
    (ensure_template_buffer s input template).1.last_template_size =
      (template.width, template.height) ∧
    ((ensure_template_buffer s input template).2.2 = true →
      (ensure_template_buffer s input template).2.1 = ⟨s.next_buffer_id, template.data⟩ ∧
      (ensure_template_buffer s input template).1.next_buffer_id = s.next_buffer_id + 1 ∧
      (ensure_template_buffer s input template).1.uniform_buffer =
        ⟨input.width, input.height, template.width, template.height⟩) ∧
    ((ensure_template_buffer s input template).2.2 = false →
      (ensure_template_buffer s input template).1.next_buffer_id = s.next_buffer_id ∧
      s.last_template_size = (template.width, template.height) ∧
      (ensure_template_buffer s input template).1.uniform_buffer = s.uniform_buffer ∧
      ∃ b₀, s.template_buffer = some b₀ ∧
        (ensure_template_buffer s input template).2.1 =
          { b₀ with data := storeInto b₀.data template.data }) ∧
    ((ensure_template_buffer s input template).2.2 = false ↔
      (s.template_buffer ≠ none ∧ s.last_template_size = (template.width, template.height))) := by
  unfold ensure_template_buffer
  rcases h : s.template_buffer with _ | b <;> simp [h]
  split
  · simp_all
  · simp_all

theorem storeInto_length (old new : List F32) : (storeInto old new).length = old.length := by
  induction old generalizing new with
  | nil => simp [storeInto]
  | cons a t ih =>
    cases new with
    | nil => simp [storeInto]
    | cons v vs => simpa [storeInto] using ih vs

theorem option_all_eq_true' {α : Type} (o : Option α) (p : α → Bool) :
    o.all p = true ↔ ∀ a, o = some a → p a = true := by
  cases o <;> simp [Option.all]

theorem wfB_iff (s : TemplateMatcher) : wfB s = true ↔
    ((∀ b, s.input_buffer = some b → b.id < s.next_buffer_id) ∧
     (∀ b, s.template_buffer = some b → b.id < s.next_buffer_id) ∧
     (∀ b, s.result_buffer = some b → b.id < s.next_buffer_id) ∧
     (∀ b, s.staging_buffer = some b → b.id < s.next_buffer_id) ∧
     (∀ g, s.bind_group = some g → g.id < s.next_buffer_id) ∧
     (s.input_buffer.isSome = true → s.template_buffer.isSome = true →
       s.result_buffer.isSome = true ∧ s.staging_buffer.isSome = true ∧
       s.bind_group.isSome = true ∧
       s.last_result_size = derivedSize s.last_input_size s.last_template_size) ∧
     (s.matching_ongoing = true → s.staging_buffer.isSome = true) ∧
     (∀ b, s.staging_buffer = some b →
       b.data.length = u32_wrap (s.last_result_size.1 * s.last_result_size.2))) := by
  simp only [wfB, Bool.and_eq_true, bufIdLt, option_all_eq_true', Bool.or_eq_true,
    Bool.not_eq_true', decide_eq_true_eq, Bool.and_eq_false_iff, and_congr_right_iff]
  constructor
  · rintro ⟨⟨⟨⟨⟨⟨⟨h1, h2⟩, h3⟩, h4⟩, h5⟩, h6⟩, h7⟩, h8⟩
    refine ⟨h1, h2, h3, h4, h5, ?_, ?_, h8⟩
    · intro hi ht
      rcases h6 with h | h
      · rcases h with h | h <;> simp_all
      · simp_all [Bool.and_eq_true]
    · intro hm
      rcases h7 with h | h <;> simp_all
  · rintro ⟨h1, h2, h3, h4, h5, h6, h7, h8⟩
    refine ⟨⟨⟨⟨⟨⟨⟨h1, h2⟩, h3⟩, h4⟩, h5⟩, ?_⟩, ?_⟩, h8⟩
    · by_cases hi : s.input_buffer.isSome = true
      · by_cases ht : s.template_buffer.isSome = true
        · right
          rcases h6 hi ht with ⟨a, b, c, d⟩
          simp_all
        · left
          simp_all
      · left
        simp_all
    · by_cases hm : s.matching_ongoing = true
      · right
        exact h7 hm
      · left
        simp_all

theorem core_changed_aux (s s1 s2 s3 : TemplateMatcher) (ib tb : GpuBuffer)
    (entry : EntryPoint) (input template : Image) (method : MatchTemplateMethod)
    (ic tc : Bool)
    (hp : ensure_pipeline s method = (s1, entry))
    (hi : ensure_input_buffer s1 input = (s2, ib, ic))
    (ht : ensure_template_buffer s2 input template = (s3, tb, tc))
    (hch : (ic || tc) = true)
    (i11 : s2.input_buffer = some ib)
    (i12 : s2.last_input_size = (input.width, input.height))
    (t3 : s3.last_input_size = s2.last_input_size)
    (t5 : s3.input_buffer = s2.input_buffer)
    (t10 : s3.template_buffer = some tb)
    (t11 : s3.last_template_size = (template.width, template.height))
    (hib_lt : ib.id < s2.next_buffer_id)
    (htb_lt : tb.id < s3.next_buffer_id)
    (hn23 : s2.next_buffer_id ≤ s3.next_buffer_id) :
    ∃ s',
      match_template_core s input template method =
        some (⟨(dispatchGridDim (derivedSize (input.width, input.height)
            (template.width, template.height)).1,
          dispatchGridDim (derivedSize (input.width, input.height)
            (template.width, template.height)).2, 1)⟩, s') ∧
      wfB s' = true ∧
      s'.matching_ongoing = true ∧
      s'.last_input_size = (input.width, input.height) ∧
      s'.last_template_size = (template.width, template.height) ∧
      s'.last_result_size =
        derivedSize (input.width, input.height) (template.width, template.height) ∧
      s'.next_buffer_id = s3.next_buffer_id + 3 ∧
      s'.input_buffer = some ib ∧
      s'.template_buffer = some tb ∧
      (∃ d, s'.result_buffer = some ⟨s3.next_buffer_id, d⟩) ∧
      (∃ d, s'.staging_buffer = some ⟨s3.next_buffer_id + 1, d⟩) ∧
      s'.bind_group = some ⟨s3.next_buffer_id + 2, ib.id, tb.id, s3.next_buffer_id⟩ := by
  rcases hd : derivedSize (input.width, input.height) (template.width, template.height)
    with ⟨RW, RH⟩
  simp only [hd]
  refine ⟨{ s3 with
      last_result_size := (RW, RH),
      result_buffer := some ⟨s3.next_buffer_id,
        storeInto (List.replicate (u32_wrap (RW * RH)) f32_zero)
          (gpuCompute s3.uniform_buffer ib.data tb.data entry)⟩,
      staging_buffer := some ⟨s3.next_buffer_id + 1,
        storeInto (List.replicate (u32_wrap (RW * RH)) f32_zero)
          (storeInto (List.replicate (u32_wrap (RW * RH)) f32_zero)
            (gpuCompute s3.uniform_buffer ib.data tb.data entry))⟩,
      bind_group := some ⟨s3.next_buffer_id + 2, ib.id, tb.id, s3.next_buffer_id⟩,
      matching_ongoing := true,
      next_buffer_id := s3.next_buffer_id + 3 }, ?_, ?_,
    by simp, by simp [t3, i12], by simp [t11], by simp, by simp, by simp [t5, i11],
    by simp [t10], ⟨_, rfl⟩, ⟨_, rfl⟩, by simp⟩
  · simp only [match_template_core, hp, hi, ht, hch, if_true, Option.some_bind, hd]
    simp
  rw [wfB_iff]
  refine ⟨?_, ?_, ?_, ?_, ?_, ?_, ?_, ?_⟩ <;> simp only []
  · intro b hb
    simp only [t5, i11, Option.some.injEq] at hb
    cases hb
    omega
  · intro b hb
    simp only [t10, Option.some.injEq] at hb
    cases hb
    omega
  · intro b hb
    simp only [Option.some.injEq] at hb
    cases hb
    simp
  · intro b hb
    simp only [Option.some.injEq] at hb
    cases hb
    simp
  · intro g hg
    simp only [Option.some.injEq] at hg
    cases hg
    simp
  · intro _ _
    refine ⟨by simp, by simp, by simp, by simp [t3, i12, t11, hd]⟩
  · intro _
    simp
  · intro b hb
    simp only [Option.some.injEq] at hb
    cases hb
    simp [storeInto_length, List.length_replicate]

theorem match_template_core_spec (s : TemplateMatcher) (h : wfB s = true)
    (input template : Image) (method : MatchTemplateMethod) :
    ∃ sub s',
      match_template_core s input template method = some (sub, s') ∧
      wfB s' = true ∧
      s'.matching_ongoing = true ∧
      s'.last_input_size = (input.width, input.height) ∧
      s'.last_template_size = (template.width, template.height) ∧
      s'.last_result_size =
        derivedSize (input.width, input.height) (template.width, template.height) ∧
      s.next_buffer_id ≤ s'.next_buffer_id ∧
      sub.workgroups =
        (dispatchGridDim (derivedSize (input.width, input.height)
            (template.width, template.height)).1,
         dispatchGridDim (derivedSize (input.width, input.height)
            (template.width, template.height)).2, 1) ∧
      rebuildPolicy s s' input template := by
  rcases hp : ensure_pipeline s method with ⟨s1, entry⟩
  have P := ensure_pipeline_state s method
  rw [hp] at P
  dsimp only at P
  obtain ⟨p1, p2, p3, p4, p5, p6, p7, p8, p9, p10, p11⟩ := P
  rcases hi : ensure_input_buffer s1 input with ⟨s2, ib, ic⟩
  have I := ensure_input_buffer_spec s1 input
  rw [hi] at I
  dsimp only at I
  obtain ⟨i1, i2, i3, i4, i5, i6, i7, i8, i9, i10, i11, i12, i13, i14, i15⟩ := I
  rcases ht : ensure_template_buffer s2 input template with ⟨s3, tb, tc⟩
  have T := ensure_template_buffer_spec s2 input template
  rw [ht] at T
  dsimp only at T
  obtain ⟨t1, t2, t3, t4, t5, t6, t7, t8, t9, t10, t11, t12, t13, t14⟩ := T
  rw [wfB_iff] at h
  obtain ⟨w1, w2, w3, w4, w5, w6, w7, w8⟩ := h
  cases ic with
  | false =>
    obtain ⟨j1, j2, b₀, hb₀, hib⟩ := i14 rfl
    have hibid : ib.id = b₀.id := by rw [hib]
    have hsi : s.input_buffer = some b₀ := by rw [← p5]; exact hb₀
    have hslin : s.last_input_size = (input.width, input.height) := by rw [← p1]; exact j2
    cases tc with
    | false =>
      obtain ⟨k1, k2, k3, c₀, hc₀, htb⟩ := t13 rfl
      have hst : s.template_buffer = some c₀ := by rw [← p6, ← i6]; exact hc₀
      have hsltm : s.last_template_size = (template.width, template.height) := by
        rw [← p2, ← i3]; exact k2
      obtain ⟨hrs, hss, hbs, hder⟩ := w6 (by simp [hsi]) (by simp [hst])
      obtain ⟨rb, hrb⟩ := Option.isSome_iff_exists.mp hrs
      obtain ⟨sb, hsb⟩ := Option.isSome_iff_exists.mp hss
      obtain ⟨bg, hbg⟩ := Option.isSome_iff_exists.mp hbs
      have h3r : s3.result_buffer = some rb := by rw [t6, i7, p7]; exact hrb
      have h3s : s3.staging_buffer = some sb := by rw [t7, i8, p8]; exact hsb
      have h3g : s3.bind_group = some bg := by rw [t8, i9, p9]; exact hbg
      have hcore : match_template_core s input template method =
          some (⟨(dispatchGridDim (derivedSize (input.width, input.height)
              (template.width, template.height)).1,
            dispatchGridDim (derivedSize (input.width, input.height)
              (template.width, template.height)).2, 1)⟩,
            { s3 with
              result_buffer := some { rb with
                data := storeInto rb.data (gpuCompute s3.uniform_buffer ib.data tb.data entry) },
              staging_buffer := some { sb with
                data := storeInto sb.data
                  (storeInto rb.data (gpuCompute s3.uniform_buffer ib.data tb.data entry)) },
              matching_ongoing := true }) := by
        simp only [match_template_core, hp, hi, ht, Bool.or_self, Bool.false_eq_true,
          if_false, h3r, h3s, h3g, Option.some_bind]
        simp [h3g]
      refine ⟨_, _, hcore, ?_, by simp, ?_, ?_, ?_, ?_, by simp, ?_⟩
      · rw [wfB_iff]
        refine ⟨?_, ?_, ?_, ?_, ?_, ?_, ?_, ?_⟩ <;> simp only []
        · intro b hb
          simp only [t5, i11] at hb
          rw [hib] at hb
          cases hb
          exact w1 b₀ hsi |>.trans_le (by rw [k1, j1, p11])
        · intro b hb
          simp only [t10] at hb
          rw [htb] at hb
          cases hb
          exact w2 c₀ hst |>.trans_le (by rw [k1, j1, p11])
        · intro b hb
          cases hb
          exact w3 rb hrb |>.trans_le (by rw [k1, j1, p11])
        · intro b hb
          cases hb
          exact w4 sb hsb |>.trans_le (by rw [k1, j1, p11])
        · intro g hg
          simp only [h3g] at hg
          cases hg
          exact w5 bg hbg |>.trans_le (by rw [k1, j1, p11])
        · intro _ _
          refine ⟨by simp, by simp, by simp [h3g], ?_⟩
          rw [t4, i4, p3, t3, i12, t11, hder, hslin, hsltm]
        · intro _
          simp
        · intro b hb
          cases hb
          simp only [storeInto_length]
          rw [t4, i4, p3]
          exact w8 sb hsb
      · simp only [t3, i12]
      · simp only [t11]
      · simp only [t4, i4, p3, hder, hslin, hsltm]
      · simp only [k1, j1, p11, le_refl]
      · constructor
        · intro hir
          exfalso
          rcases hir with hh | hh
          · rw [hsi] at hh
            cases hh
          · exact hh hslin
        constructor
        · intro _
          exact ⟨b₀, hsi, by simp only [t5, i11, hib]⟩
        constructor
        · intro htr
          exfalso
          rcases htr with hh | hh
          · rw [hst] at hh
            cases hh
          · exact hh hsltm
        constructor
        · intro _
          exact ⟨c₀, hst, by simp only [t10, htb]⟩
        constructor
        · intro hc
          exfalso
          rcases hc with (hh | hh) | (hh | hh)
          · rw [hsi] at hh
            cases hh
          · exact hh hslin
          · rw [hst] at hh
            cases hh
          · exact hh hsltm
        · intro _
          refine ⟨by simp [hrb], by simp [hsb], by simp [h3g, hbg]⟩
    | true =>
      obtain ⟨htb, k1, huni⟩ := t12 rfl
      have htbid : tb.id = s2.next_buffer_id := by rw [htb]
      have hib_lt : ib.id < s2.next_buffer_id := by
        have hw := w1 b₀ hsi
        omega
      have htb_lt : tb.id < s3.next_buffer_id := by omega
      have hn23 : s2.next_buffer_id ≤ s3.next_buffer_id := by omega
      obtain ⟨s', hcore, hwf, hmo, hlin, hltm, hlrs, hnext, hsin, hstm,
        ⟨d1, hres⟩, ⟨d2, hstg⟩, hbgr⟩ :=
        core_changed_aux s s1 s2 s3 ib tb entry input template method false true hp hi ht rfl
          i11 i12 t3 t5 t10 t11 hib_lt htb_lt hn23
      refine ⟨_, s', hcore, hwf, hmo, hlin, hltm, hlrs, by omega, rfl, ?_, ?_, ?_, ?_, ?_, ?_⟩
      · intro hir
        exfalso
        rcases hir with hh | hh
        · rw [hsi] at hh
          cases hh
        · exact hh hslin
      · intro _
        exact ⟨b₀, hsi, by rw [hsin, hib]⟩
      · intro _
        refine ⟨tb, hstm, by rw [htb], ?_⟩
        intro c₁ hc₁
        have hw := w2 c₁ hc₁
        omega
      · intro hnt
        push_neg at hnt
        obtain ⟨ha, hb⟩ := hnt
        have hq : (true : Bool) = false :=
          t14.mpr ⟨by rw [i6, p6]; exact ha, by rw [i3, p2]; exact hb⟩
        cases hq
      · intro _
        refine ⟨⟨⟨s3.next_buffer_id, d1⟩, hres, ?_⟩,
          ⟨⟨s3.next_buffer_id + 1, d2⟩, hstg, ?_⟩, ⟨_, hbgr, ?_⟩⟩
        · intro b₁ hb₁
          have hw := w3 b₁ hb₁
          change s3.next_buffer_id ≠ b₁.id
          omega
        · intro b₁ hb₁
          have hw := w4 b₁ hb₁
          change s3.next_buffer_id + 1 ≠ b₁.id
          omega
        · intro g₁ hg₁
          have hw := w5 g₁ hg₁
          change s3.next_buffer_id + 2 ≠ g₁.id
          omega
      · intro hn
        exfalso
        apply hn
        right
        by_cases hz : s.template_buffer = none
        · exact Or.inl hz
        · right
          intro heq
          have hq : (true : Bool) = false :=
            t14.mpr ⟨by rw [i6, p6]; exact hz, by rw [i3, p2]; exact heq⟩
          cases hq
  | true =>
    obtain ⟨hib, j1⟩ := i13 rfl
    have hibid : ib.id = s1.next_buffer_id := by rw [hib]
    have hib_lt : ib.id < s2.next_buffer_id := by omega
    cases tc with
    | false =>
      obtain ⟨k1, k2, k3, c₀, hc₀, htb⟩ := t13 rfl
      have htbid : tb.id = c₀.id := by rw [htb]
      have hst : s.template_buffer = some c₀ := by rw [← p6, ← i6]; exact hc₀
      have hsltm : s.last_template_size = (template.width, template.height) := by
        rw [← p2, ← i3]; exact k2
      have htb_lt : tb.id < s3.next_buffer_id := by
        have hw := w2 c₀ hst
        omega
      have hn23 : s2.next_buffer_id ≤ s3.next_buffer_id := by omega
      obtain ⟨s', hcore, hwf, hmo, hlin, hltm, hlrs, hnext, hsin, hstm,
        ⟨d1, hres⟩, ⟨d2, hstg⟩, hbgr⟩ :=
        core_changed_aux s s1 s2 s3 ib tb entry input template method true false hp hi ht rfl
          i11 i12 t3 t5 t10 t11 hib_lt htb_lt hn23
      refine ⟨_, s', hcore, hwf, hmo, hlin, hltm, hlrs, by omega, rfl, ?_, ?_, ?_, ?_, ?_, ?_⟩
      · intro _
        refine ⟨ib, hsin, by rw [hib], ?_⟩
        intro b₁ hb₁
        have hw := w1 b₁ hb₁
        omega
      · intro hni
        push_neg at hni
        obtain ⟨ha, hb⟩ := hni
        have hq : (true : Bool) = false :=
          i15.mpr ⟨by rw [p5]; exact ha, by rw [p1]; exact hb⟩
        cases hq
      · intro htr
        exfalso
        rcases htr with hh | hh
        · rw [hst] at hh
          cases hh
        · exact hh hsltm
      · intro _
        exact ⟨c₀, hst, by rw [hstm, htb]⟩
      · intro _
        refine ⟨⟨⟨s3.next_buffer_id, d1⟩, hres, ?_⟩,
          ⟨⟨s3.next_buffer_id + 1, d2⟩, hstg, ?_⟩, ⟨_, hbgr, ?_⟩⟩
        · intro b₁ hb₁
          have hw := w3 b₁ hb₁
          change s3.next_buffer_id ≠ b₁.id
          omega
        · intro b₁ hb₁
          have hw := w4 b₁ hb₁
          change s3.next_buffer_id + 1 ≠ b₁.id
          omega
        · intro g₁ hg₁
          have hw := w5 g₁ hg₁
          change s3.next_buffer_id + 2 ≠ g₁.id
          omega
      · intro hn
        exfalso
        apply hn
        left
        by_cases hz : s.input_buffer = none
        · exact Or.inl hz
        · right
          intro heq
          have hq : (true : Bool) = false :=
            i15.mpr ⟨by rw [p5]; exact hz, by rw [p1]; exact heq⟩
          cases hq
    | true =>
      obtain ⟨htb, k1, huni⟩ := t12 rfl
      have htbid : tb.id = s2.next_buffer_id := by rw [htb]
      have htb_lt : tb.id < s3.next_buffer_id := by omega
      have hn23 : s2.next_buffer_id ≤ s3.next_buffer_id := by omega
      obtain ⟨s', hcore, hwf, hmo, hlin, hltm, hlrs, hnext, hsin, hstm,
        ⟨d1, hres⟩, ⟨d2, hstg⟩, hbgr⟩ :=
        core_changed_aux s s1 s2 s3 ib tb entry input template method true true hp hi ht rfl
          i11 i12 t3 t5 t10 t11 hib_lt htb_lt hn23
      refine ⟨_, s', hcore, hwf, hmo, hlin, hltm, hlrs, by omega, rfl, ?_, ?_, ?_, ?_, ?_, ?_⟩
      · intro _
        refine ⟨ib, hsin, by rw [hib], ?_⟩
        intro b₁ hb₁
        have hw := w1 b₁ hb₁
        omega
      · intro hni
        push_neg at hni
        obtain ⟨ha, hb⟩ := hni
        have hq : (true : Bool) = false :=
          i15.mpr ⟨by rw [p5]; exact ha, by rw [p1]; exact hb⟩
        cases hq
      · intro _
        refine ⟨tb, hstm, by rw [htb], ?_⟩
        intro c₁ hc₁
        have hw := w2 c₁ hc₁
        omega
      · intro hnt
        push_neg at hnt
        obtain ⟨ha, hb⟩ := hnt
        have hq : (true : Bool) = false :=
          t14.mpr ⟨by rw [i6, p6]; exact ha, by rw [i3, p2]; exact hb⟩
        cases hq
      · intro _
        refine ⟨⟨⟨s3.next_buffer_id, d1⟩, hres, ?_⟩,
          ⟨⟨s3.next_buffer_id + 1, d2⟩, hstg, ?_⟩, ⟨_, hbgr, ?_⟩⟩
        · intro b₁ hb₁
          have hw := w3 b₁ hb₁
          change s3.next_buffer_id ≠ b₁.id
          omega
        · intro b₁ hb₁
          have hw := w4 b₁ hb₁
          change s3.next_buffer_id + 1 ≠ b₁.id
          omega
        · intro g₁ hg₁
          have hw := w5 g₁ hg₁
          change s3.next_buffer_id + 2 ≠ g₁.id
          omega
      · intro hn
        exfalso
        apply hn
        left
        by_cases hz : s.input_buffer = none
        · exact Or.inl hz
        · right
          intro heq
          have hq : (true : Bool) = false :=
            i15.mpr ⟨by rw [p5]; exact hz, by rw [p1]; exact heq⟩
          cases hq

theorem wait_not_ongoing (s : TemplateMatcher) (mapOk : Bool)
    (h : s.matching_ongoing = false) :
    s.wait_for_result mapOk = some (none, s) := by
  unfold TemplateMatcher.wait_for_result
  rw [h]
  simp

theorem wait_for_result_ongoing (s : TemplateMatcher) (sb : GpuBuffer) (mapOk : Bool)
    (hon : s.matching_ongoing = true) (hsb : s.staging_buffer = some sb) :
    s.wait_for_result mapOk = some (some ⟨(if mapOk then sb.data else
        List.replicate (u32_wrap (s.last_result_size.1 * s.last_result_size.2)) f32_zero),
        s.last_result_size.1, s.last_result_size.2⟩,
      { s with matching_ongoing := false }) := by
  unfold TemplateMatcher.wait_for_result
  rw [hon]
  simp [hsb]

theorem wfB_set_ongoing_false (s : TemplateMatcher) (h : wfB s = true) :
    wfB { s with matching_ongoing := false } = true := by
  rw [wfB_iff] at h ⊢
  obtain ⟨w1, w2, w3, w4, w5, w6, w7, w8⟩ := h
  exact ⟨w1, w2, w3, w4, w5, w6, by simp, w8⟩

theorem match_template_spec (s : TemplateMatcher) (h : wfB s = true)
    (input template : Image) (method : MatchTemplateMethod) (mapOk : Bool) :
    ∃ sub s',
      s.match_template input template method mapOk = some (sub, s') ∧
      wfB s' = true ∧
      s'.matching_ongoing = true ∧
      s'.last_input_size = (input.width, input.height) ∧
      s'.last_template_size = (template.width, template.height) ∧
      s'.last_result_size =
        derivedSize (input.width, input.height) (template.width, template.height) ∧
      s.next_buffer_id ≤ s'.next_buffer_id ∧
      sub.workgroups =
        (dispatchGridDim (derivedSize (input.width, input.height)
            (template.width, template.height)).1,
         dispatchGridDim (derivedSize (input.width, input.height)
            (template.width, template.height)).2, 1) ∧
      rebuildPolicy s s' input template := by
  cases hon : s.matching_ongoing with
  | false =>
    have heq : s.match_template input template method mapOk =
        match_template_core s input template method := by
      unfold TemplateMatcher.match_template
      rw [hon]
      simp
    rw [heq]
    exact match_template_core_spec s h input template method
  | true =>
    obtain ⟨sb, hsb⟩ := Option.isSome_iff_exists.mp
      (((wfB_iff s).mp h).2.2.2.2.2.2.1 hon)
    have hw := wait_for_result_ongoing s sb mapOk hon hsb
    have heq : s.match_template input template method mapOk =
        match_template_core { s with matching_ongoing := false } input template method := by
      unfold TemplateMatcher.match_template
      rw [hon]
      simp [hw]
    have h₀ : wfB { s with matching_ongoing := false } = true := wfB_set_ongoing_false s h
    obtain ⟨sub, s', hc, hrest⟩ :=
      match_template_core_spec { s with matching_ongoing := false } h₀ input template method
    rw [heq]
    exact ⟨sub, s', hc, hrest⟩

theorem derivedSize_eq (iw ih tw th : Nat) (h1 : tw ≤ iw) (h2 : th ≤ ih)
    (h3 : 0 < tw) (h4 : 0 < th) (h5 : iw < U32_MOD) (h6 : ih < U32_MOD) :
    derivedSize (iw, ih) (tw, th) = (iw - tw + 1, ih - th + 1) := by
  unfold derivedSize u32_wrap u32_sub U32_MOD at *
  simp only [Prod.mk.injEq]
  constructor <;> omega

theorem dispatchGridDim_small (n : Nat) (h : n ≤ 2 ^ 24) :
    dispatchGridDim n = (n + 15) / 16 := by
  unfold dispatchGridDim roundF32Nat
  rw [if_pos h]

/-- C2: on every `match_template` call on a well-formed matcher, the input
buffer is reallocated exactly when absent or when the input dimensions differ
from the previous call's (otherwise it is overwritten in place, keeping its
identity); the template buffer independently follows the same policy; and the
result buffer, staging buffer and bind group are recreated exactly when the
input or template buffer was rebuilt this call, and are otherwise reused with
their identities unchanged. -/
theorem c2_buffer_reuse_policy (s : TemplateMatcher) (h : wfB s = true)
    (input template : Image) (method : MatchTemplateMethod) (mapOk : Bool) :
    ∃ sub s', s.match_template input template method mapOk = some (sub, s') ∧
      rebuildPolicy s s' input template := by
  obtain ⟨sub, s', hc, _, _, _, _, _, _, _, hrp⟩ :=
    match_template_spec s h input template method mapOk
  exact ⟨sub, s', hc, hrp⟩

theorem c2_witness :
    wfB TemplateMatcher.new = true ∧
    ∃ sub s', TemplateMatcher.new.match_template ⟨[f32_zero], 1, 1⟩ ⟨[f32_zero], 1, 1⟩
        .SumOfAbsoluteDifferences true = some (sub, s') ∧
      rebuildPolicy TemplateMatcher.new s' ⟨[f32_zero], 1, 1⟩ ⟨[f32_zero], 1, 1⟩ :=
  ⟨by decide, c2_buffer_reuse_policy TemplateMatcher.new (by decide) ⟨[f32_zero], 1, 1⟩
    ⟨[f32_zero], 1, 1⟩ .SumOfAbsoluteDifferences true⟩

/-- C3: at most one dispatched-but-unretrieved result exists at a time.  After
a `match_template` call the matcher has an outstanding result; a second call
first retrieves and drops that result internally (it behaves exactly like the
same call performed after an explicit retrieval whose value is discarded);
after the two calls, `wait_for_result` returns a surface whose dimensions are
the ones derived from the second call's images, and one further
`wait_for_result` returns `none`. -/
theorem c3_discard_semantics (s : TemplateMatcher) (h : wfB s = true)
    (inp1 tpl1 inp2 tpl2 : Image) (m1 m2 : MatchTemplateMethod) (b1 b2 b3 b4 : Bool) :
    ∃ sub1 s1, s.match_template inp1 tpl1 m1 b1 = some (sub1, s1) ∧
      s1.matching_ongoing = true ∧
      (∃ r1 s1', s1.wait_for_result b2 = some (r1, s1') ∧
        s1.match_template inp2 tpl2 m2 b2 = s1'.match_template inp2 tpl2 m2 b2) ∧
      ∃ sub2 s2, s1.match_template inp2 tpl2 m2 b2 = some (sub2, s2) ∧
        s2.matching_ongoing = true ∧
        ∃ r s2', s2.wait_for_result b3 = some (some r, s2') ∧
          r.width = (derivedSize (inp2.width, inp2.height) (tpl2.width, tpl2.height)).1 ∧
          r.height = (derivedSize (inp2.width, inp2.height) (tpl2.width, tpl2.height)).2 ∧
          s2'.wait_for_result b4 = some (none, s2') := by
  obtain ⟨sub1, s1, hc1, hwf1, hon1, _⟩ := match_template_spec s h inp1 tpl1 m1 b1
  obtain ⟨sb1, hsb1⟩ := Option.isSome_iff_exists.mp (((wfB_iff s1).mp hwf1).2.2.2.2.2.2.1 hon1)
  have hw1 := wait_for_result_ongoing s1 sb1 b2 hon1 hsb1
  refine ⟨sub1, s1, hc1, hon1, ⟨_, _, hw1, ?_⟩, ?_⟩
  · unfold TemplateMatcher.match_template
    rw [hon1]
    simp [hw1]
  · obtain ⟨sub2, s2, hc2, hwf2, hon2, _, _, hlr2, _⟩ :=
      match_template_spec s1 hwf1 inp2 tpl2 m2 b2
    obtain ⟨sb2, hsb2⟩ := Option.isSome_iff_exists.mp
      (((wfB_iff s2).mp hwf2).2.2.2.2.2.2.1 hon2)
    have hw2 := wait_for_result_ongoing s2 sb2 b3 hon2 hsb2
    refine ⟨sub2, s2, hc2, hon2, _, _, hw2, by simp [hlr2], by simp [hlr2],
      wait_not_ongoing _ b4 rfl⟩

theorem c3_witness :
    wfB TemplateMatcher.new = true ∧
    ∃ sub1 s1, TemplateMatcher.new.match_template ⟨[f32_zero], 1, 1⟩ ⟨[f32_zero], 1, 1⟩
        .SumOfAbsoluteDifferences true = some (sub1, s1) ∧
      s1.matching_ongoing = true ∧
      (∃ r1 s1', s1.wait_for_result true = some (r1, s1') ∧
        s1.match_template ⟨[f32_zero], 1, 1⟩ ⟨[f32_zero], 1, 1⟩
          .SumOfSquaredDifferences true =
        s1'.match_template ⟨[f32_zero], 1, 1⟩ ⟨[f32_zero], 1, 1⟩
          .SumOfSquaredDifferences true) ∧
      ∃ sub2 s2, s1.match_template ⟨[f32_zero], 1, 1⟩ ⟨[f32_zero], 1, 1⟩
          .SumOfSquaredDifferences true = some (sub2, s2) ∧
        s2.matching_ongoing = true ∧
        ∃ r s2', s2.wait_for_result true = some (some r, s2') ∧
          r.width = (derivedSize (1, 1) (1, 1)).1 ∧
          r.height = (derivedSize (1, 1) (1, 1)).2 ∧
          s2'.wait_for_result true = some (none, s2') :=
  ⟨by decide, c3_discard_semantics TemplateMatcher.new (by decide)
    ⟨[f32_zero], 1, 1⟩ ⟨[f32_zero], 1, 1⟩ ⟨[f32_zero], 1, 1⟩ ⟨[f32_zero], 1, 1⟩
    .SumOfAbsoluteDifferences .SumOfSquaredDifferences true true true true⟩

/-- C5: `wait_for_result` returns `none` exactly when no dispatch is
outstanding, clears the outstanding flag in every case (both mapping outcomes),
and an immediately following `wait_for_result` returns `none`. -/
theorem c5_wait_none_iff (s : TemplateMatcher) (h : wfB s = true) (b b' : Bool) :
    ∃ r s', s.wait_for_result b = some (r, s') ∧
      (r = none ↔ s.matching_ongoing = false) ∧
      s'.matching_ongoing = false ∧
      s'.wait_for_result b' = some (none, s') := by
  cases hon : s.matching_ongoing with
  | false =>
    exact ⟨none, s, wait_not_ongoing s b hon, by simp [hon], hon, wait_not_ongoing s b' hon⟩
  | true =>
    obtain ⟨sb, hsb⟩ := Option.isSome_iff_exists.mp (((wfB_iff s).mp h).2.2.2.2.2.2.1 hon)
    exact ⟨_, _, wait_for_result_ongoing s sb b hon hsb, by simp [hon], rfl,
      wait_not_ongoing _ b' rfl⟩

theorem c5_witness :
    wfB TemplateMatcher.new = true ∧
    ∃ r s', TemplateMatcher.new.wait_for_result true = some (r, s') ∧
      (r = none ↔ TemplateMatcher.new.matching_ongoing = false) ∧
      s'.matching_ongoing = false ∧
      s'.wait_for_result false = some (none, s') :=
  ⟨by decide, c5_wait_none_iff TemplateMatcher.new (by decide) true false⟩

/-- C6: when the staging-buffer mapping fails, `wait_for_result` still returns
`Some` of a surface of the expected result dimensions whose samples are all
exactly `0.0`, instead of an error value or a panic. -/
theorem c6_map_failure_zero_surface (s : TemplateMatcher) (h : wfB s = true)
    (hon : s.matching_ongoing = true) :
    ∃ s', s.wait_for_result false = some
      (some ⟨List.replicate (u32_wrap (s.last_result_size.1 * s.last_result_size.2)) f32_zero,
        s.last_result_size.1, s.last_result_size.2⟩, s') ∧
      s'.matching_ongoing = false := by
  obtain ⟨sb, hsb⟩ := Option.isSome_iff_exists.mp (((wfB_iff s).mp h).2.2.2.2.2.2.1 hon)
  have hw := wait_for_result_ongoing s sb false hon hsb
  exact ⟨_, by simpa using hw, rfl⟩

theorem c6_witness :
    wfB demoOngoing = true ∧ demoOngoing.matching_ongoing = true ∧
    ∃ s', demoOngoing.wait_for_result false = some
      (some ⟨List.replicate
          (u32_wrap (demoOngoing.last_result_size.1 * demoOngoing.last_result_size.2)) f32_zero,
        demoOngoing.last_result_size.1, demoOngoing.last_result_size.2⟩, s') ∧
      s'.matching_ongoing = false :=
  ⟨by decide, by decide, c6_map_failure_zero_surface demoOngoing (by decide) (by decide)⟩

/-- C9: `match_template` performs no validation of the template-fits-in-input
precondition.  Under that precondition the `u32` subtraction in the derived
result width does not underflow (it equals the exact difference); with a 3×1
template against a 1×1 input the call still dispatches (no validation, the
outstanding flag is set) and the derived result width has wrapped around to
`2^32 - 1`. -/
theorem c9_unchecked_underflow :
    (∀ iw tw, tw ≤ iw → iw < U32_MOD → u32_sub iw tw = iw - tw) ∧
    ¬((3 : Nat) ≤ 1) ∧
    ((TemplateMatcher.new.match_template ⟨[], 1, 1⟩ ⟨[], 3, 1⟩
        .SumOfAbsoluteDifferences true).map
      (fun p => (p.2.matching_ongoing, p.2.last_result_size.1)) =
      some (true, 4294967295)) ∧
    (4294967295 : Nat) = U32_MOD - 1 := by
  refine ⟨?_, by decide, rfl, by decide⟩
  intro iw tw hle hlt
  unfold u32_sub U32_MOD at *
  omega

theorem c9_witness : u32_sub 5 3 = 5 - 3 :=
  c9_unchecked_underflow.1 5 3 (by decide) (by decide)

/-- C1: evaluation of the code at the failing input of the uniform-staleness
bug.  Calling `match_template` with a 4×4 input and a 2×2 template and then
again with an 8×8 input and the same 2×2 template leaves the uniform buffer at
`(4, 4, 2, 2)` while the input buffer bound at the second dispatch is the 8×8
one (64 samples): the uniform is only rewritten when the template dimensions
change, so the stored input dimensions do not match the buffers currently
bound, contradicting the claimed invariant. -/
theorem c1_uniform_stale :
    ((TemplateMatcher.new.match_template c1_input_a c1_template
        .SumOfAbsoluteDifferences true).bind fun p =>
      p.2.match_template c1_input_b c1_template .SumOfAbsoluteDifferences true).map
      (fun p => (p.2.uniform_buffer, p.2.last_input_size,
        p.2.input_buffer.map fun b => b.data.length)) =
      some (⟨4, 4, 2, 2⟩, (8, 8), some 64) ∧
    ((4, 4) : Nat × Nat) ≠ (8, 8) ∧ (64 : Nat) ≠ 4 * 4 := by
  exact ⟨by decide, by decide, by decide⟩

/-- C4 (amended): for a well-formed matcher and a valid pair — nonempty
template fitting inside the input, `u32`-representable dimensions, and a
result element count below `2^32` so the `u32` product does not wrap —
`wait_for_result` after `match_template` returns a surface of exactly
`input − template + 1` per axis whose data length is `width * height`,
for both mapping outcomes. -/
theorem c4_result_dimensions (s : TemplateMatcher) (h : wfB s = true)
    (input template : Image) (method : MatchTemplateMethod) (mapOk mapOk2 : Bool)
    (h1 : template.width ≤ input.width) (h2 : template.height ≤ input.height)
    (h3 : 0 < template.width) (h4 : 0 < template.height)
    (h5 : input.width < U32_MOD) (h6 : input.height < U32_MOD)
    (h7 : (input.width - template.width + 1) * (input.height - template.height + 1) < U32_MOD) :
    ∃ sub s' r s'',
      s.match_template input template method mapOk = some (sub, s') ∧
      s'.wait_for_result mapOk2 = some (some r, s'') ∧
      r.width = input.width - template.width + 1 ∧
      r.height = input.height - template.height + 1 ∧
      r.data.length = r.width * r.height := by
  obtain ⟨sub, s', hc, hwf, hon, _, _, hlr, _⟩ :=
    match_template_spec s h input template method mapOk
  rw [derivedSize_eq input.width input.height template.width template.height
    h1 h2 h3 h4 h5 h6] at hlr
  obtain ⟨sb, hsb⟩ := Option.isSome_iff_exists.mp (((wfB_iff s').mp hwf).2.2.2.2.2.2.1 hon)
  have hlen := ((wfB_iff s').mp hwf).2.2.2.2.2.2.2 sb hsb
  have hw := wait_for_result_ongoing s' sb mapOk2 hon hsb
  refine ⟨sub, s', _, _, hc, hw, by simp [hlr], by simp [hlr], ?_⟩
  have hcount : u32_wrap ((input.width - template.width + 1) *
      (input.height - template.height + 1)) =
      (input.width - template.width + 1) * (input.height - template.height + 1) :=
    Nat.mod_eq_of_lt h7
  cases mapOk2 with
  | false => simp [hlr, hcount]
  | true => simp [hlr, hlen, hcount]

theorem c4_witness :
    wfB TemplateMatcher.new = true ∧ (2 : Nat) ≤ 4 ∧ (0 : Nat) < 2 ∧
    (4 : Nat) < U32_MOD ∧ (4 - 2 + 1) * (4 - 2 + 1) < U32_MOD ∧
    ∃ sub s' r s'',
      TemplateMatcher.new.match_template ⟨List.replicate 16 f32_zero, 4, 4⟩
        ⟨List.replicate 4 f32_zero, 2, 2⟩ .SumOfSquaredDifferences true = some (sub, s') ∧
      s'.wait_for_result true = some (some r, s'') ∧
      r.width = 4 - 2 + 1 ∧ r.height = 4 - 2 + 1 ∧
      r.data.length = r.width * r.height :=
  ⟨by decide, by decide, by decide, by decide, by decide,
    c4_result_dimensions TemplateMatcher.new (by decide)
      ⟨List.replicate 16 f32_zero, 4, 4⟩ ⟨List.replicate 4 f32_zero, 2, 2⟩
      .SumOfSquaredDifferences true true (by decide) (by decide) (by decide) (by decide)
      (by decide) (by decide) (by decide)⟩

set_option maxRecDepth 8192 in
/-- C4 (counterexample): for the valid pair of a 65536×65536 input and a 1×1
template (both with data length equal to width × height and the template
fitting inside the input), the result element count `65536 * 65536 = 2^32`
wraps to `0` in the `u32` multiplication sizing the buffers, so the surface
returned by `wait_for_result` has width and height `65536` but data length
`0`, not `width * height`: the claim fails without a bound on the result
element count. -/
theorem c4_counterexample :
    bigWrapInput.data.length = bigWrapInput.width * bigWrapInput.height ∧
    oneByOne.data.length = oneByOne.width * oneByOne.height ∧
    oneByOne.width ≤ bigWrapInput.width ∧ oneByOne.height ≤ bigWrapInput.height ∧
    ((TemplateMatcher.new.match_template bigWrapInput oneByOne
        .SumOfSquaredDifferences true).map fun p =>
      (p.2.wait_for_result true).map fun q =>
        q.1.map fun r => (r.width, r.height, r.data.length)) =
      some (some (some (65536, 65536, 0))) ∧
    (0 : Nat) ≠ 65536 * 65536 := by
  refine ⟨?_, by decide, by decide, by decide, rfl, by decide⟩
  show (List.replicate 4294967296 f32_zero).length = 65536 * 65536
  rw [List.length_replicate]

/-- C8 (amended): the workgroup grid submitted by `match_template` is exactly
`⌈result_width / 16⌉ × ⌈result_height / 16⌉ × 1` whenever both result
dimensions are at most `2^24`, where the `u32 → f32` conversion in
`(result_width as f32 / 16.0).ceil()` is exact. -/
theorem c8_workgroup_grid (s : TemplateMatcher) (h : wfB s = true)
    (input template : Image) (method : MatchTemplateMethod) (mapOk : Bool)
    (hw : (derivedSize (input.width, input.height)
      (template.width, template.height)).1 ≤ 2 ^ 24)
    (hh : (derivedSize (input.width, input.height)
      (template.width, template.height)).2 ≤ 2 ^ 24) :
    ∃ sub s', s.match_template input template method mapOk = some (sub, s') ∧
      sub.workgroups =
        (((derivedSize (input.width, input.height) (template.width, template.height)).1
            + 15) / 16,
         ((derivedSize (input.width, input.height) (template.width, template.height)).2
            + 15) / 16, 1) := by
  obtain ⟨sub, s', hc, _, _, _, _, _, _, hwork, _⟩ :=
    match_template_spec s h input template method mapOk
  refine ⟨sub, s', hc, ?_⟩
  rw [hwork, dispatchGridDim_small _ hw, dispatchGridDim_small _ hh]

theorem c8_witness :
    wfB TemplateMatcher.new = true ∧
    (derivedSize (33, 1) (1, 1)).1 ≤ 2 ^ 24 ∧
    (derivedSize (33, 1) (1, 1)).2 ≤ 2 ^ 24 ∧
    ∃ sub s', TemplateMatcher.new.match_template ⟨List.replicate 33 f32_zero, 33, 1⟩
        ⟨[f32_zero], 1, 1⟩ .SumOfAbsoluteDifferences true = some (sub, s') ∧
      sub.workgroups = (((derivedSize (33, 1) (1, 1)).1 + 15) / 16,
        ((derivedSize (33, 1) (1, 1)).2 + 15) / 16, 1) :=
  ⟨by decide, by decide, by decide,
    c8_workgroup_grid TemplateMatcher.new (by decide) ⟨List.replicate 33 f32_zero, 33, 1⟩
      ⟨[f32_zero], 1, 1⟩ .SumOfAbsoluteDifferences true (by decide) (by decide)⟩

/-- C8 (counterexample): at result width `2^24 + 1 = 16777217` (a 16777217×1
input with a 1×1 template) the conversion to `f32` rounds down to `2^24`, so
the submitted grid has `1048576` workgroups in x, while the exact integer
ceiling `⌈16777217 / 16⌉` is `1048577`: the grid is not always the exact
ceiling division. -/
theorem c8_counterexample :
    ((TemplateMatcher.new.match_template ⟨[], 16777217, 1⟩ ⟨[], 1, 1⟩
        .SumOfAbsoluteDifferences true).map fun p => p.1.workgroups) =
      some (1048576, 1, 1) ∧
    (16777217 + 15) / 16 = 1048577 ∧ (1048576 : Nat) ≠ 1048577 := by
  exact ⟨rfl, by decide, by decide⟩

theorem getD_mem_of_lt (vals : List ℚ) (k : Nat) (hk : k < vals.length) :
    vals.getD k 0 ∈ vals := by
  rw [List.getD_eq_getElem?_getD, List.getElem?_eq_getElem hk]
  exact List.getElem_mem hk

theorem foldlM_eq_foldl_of_forall {α β : Type} (g : β → α → Option β) (g' : β → α → β)
    (l : List α) (h : ∀ a ∈ l, ∀ st, g st a = some (g' st a)) :
    ∀ st, l.foldlM g st = some (l.foldl g' st) := by
  induction l with
  | nil => intro st; rfl
  | cons a t ih =>
    intro st
    have ha := h a (List.mem_cons_self a t) st
    simp only [List.foldlM, ha, Option.some_bind, List.foldl]
    exact ih (fun b hb st => h b (List.mem_cons_of_mem a hb) st) (g' st a)

theorem fe_update_eq_pure (input : Image) (vals : List ℚ)
    (hdata : input.data = vals.map some) (y x : Nat)
    (hidx : y * input.width + x < vals.length) (st : Extremes) :
    fe_update input st (y, x) = some (fe_update_pure vals input.width st (y, x)) := by
  unfold fe_update fe_update_pure
  have hget : input.data.get? (y * input.width + x) =
      some (some (vals.getD (y * input.width + x) 0)) := by
    rw [List.get?_eq_getElem?, hdata, List.getElem?_map]
    rw [List.getD_eq_getElem?_getD, List.getElem?_eq_getElem hidx]
    simp
  simp only [hget]

theorem nested_foldlM_find (input : Image) (vals : List ℚ)
    (hdata : input.data = vals.map some)
    (hlen : input.width * input.height ≤ vals.length) :
    find_extremes input = some ((List.range input.height).foldl
      (fun st y => (List.range input.width).foldl
        (fun st x => fe_update_pure vals input.width st (y, x)) st) feInit) := by
  unfold find_extremes
  apply foldlM_eq_foldl_of_forall
  intro y hy st
  apply foldlM_eq_foldl_of_forall
  intro x hx st
  apply fe_update_eq_pure input vals hdata
  rw [List.mem_range] at hy hx
  calc y * input.width + x < y * input.width + input.width := by omega
    _ = (y + 1) * input.width := by ring
    _ ≤ input.height * input.width := Nat.mul_le_mul_right _ (by omega)
    _ = input.width * input.height := Nat.mul_comm _ _
    _ ≤ vals.length := hlen

theorem nested_foldl_eq_pairRows {σ : Type} (f : σ → (Nat × Nat) → σ) (w : Nat) :
    ∀ (ys : List Nat) (st : σ),
      ys.foldl (fun st y => (List.range w).foldl (fun st x => f st (y, x)) st) st =
      (pairRows w ys).foldl f st := by
  intro ys
  induction ys with
  | nil => intro st; rfl
  | cons y t ih =>
    intro st
    simp only [List.foldl, pairRows, List.foldl_append, List.foldl_map, ih]

theorem pairRows_mem (w : Nat) : ∀ (ys : List Nat) (yx : Nat × Nat),
    yx ∈ pairRows w ys → yx.1 ∈ ys ∧ yx.2 < w := by
  intro ys
  induction ys with
  | nil => intro yx h; cases h
  | cons y t ih =>
    intro yx h
    rw [pairRows, List.mem_append] at h
    rcases h with h | h
    · rw [List.mem_map] at h
      obtain ⟨x, hx, rfl⟩ := h
      exact ⟨List.mem_cons_self y t, by simpa using List.mem_range.mp hx⟩
    · obtain ⟨h1, h2⟩ := ih yx h
      exact ⟨List.mem_cons_of_mem y h1, h2⟩

theorem pairRows_append (w : Nat) (l1 l2 : List Nat) :
    pairRows w (l1 ++ l2) = pairRows w l1 ++ pairRows w l2 := by
  induction l1 with
  | nil => rfl
  | cons y t ih => simp only [List.cons_append, pairRows, List.append_eq, ih, List.append_assoc]

theorem pairRows_map_toIdx (w : Nat) : ∀ n : Nat,
    (pairRows w (List.range n)).map (fun yx => yx.1 * w + yx.2) = List.range (n * w) := by
  intro n
  induction n with
  | zero => simp [pairRows]
  | succ m ih =>
    rw [List.range_succ, pairRows_append, List.map_append, ih, Nat.succ_mul,
      List.range_add]
    congr 1
    simp only [pairRows, List.append_nil, List.map_map]
    apply List.map_congr_left
    intro x _
    simp [Nat.add_comm]

theorem foldl_stepMM (vals : List ℚ) : ∀ (l : List Nat) (st : (ℚ × Nat) × (ℚ × Nat)),
    l.foldl (stepMM vals) st = (l.foldl (stepMin vals) st.1, l.foldl (stepMax vals) st.2) := by
  intro l
  induction l with
  | nil => intro st; rfl
  | cons i t ih => intro st; simp only [List.foldl, ih, stepMM]

theorem fe_update_pure_encode (vals : List ℚ) (w : Nat) (st : (ℚ × Nat) × (ℚ × Nat))
    (y x : Nat) (hx : x < w) :
    fe_update_pure vals w (encodeExt w st) (y, x) =
    encodeExt w (stepMM vals st (y * w + x)) := by
  have hmod : (y * w + x) % w = x := by
    rw [Nat.mul_comm, Nat.mul_add_mod]
    exact Nat.mod_eq_of_lt hx
  have hdiv : (y * w + x) / w = y := by
    rw [Nat.mul_comm, Nat.mul_add_div (by omega)]
    rw [Nat.div_eq_of_lt hx, Nat.add_zero]
  unfold fe_update_pure encodeExt stepMM stepMin stepMax f32_lt f32_gt
  by_cases h1 : vals.getD (y * w + x) 0 < st.1.1 <;>
    by_cases h2 : st.2.1 < vals.getD (y * w + x) 0 <;>
      simp only [List.getD_eq_getElem?_getD] at h1 h2 <;>
        simp [h1, h2, hmod, hdiv]

theorem pairRows_foldl_encode (vals : List ℚ) (w : Nat) :
    ∀ (l : List (Nat × Nat)) (st : (ℚ × Nat) × (ℚ × Nat)),
      (∀ yx ∈ l, yx.2 < w) →
      l.foldl (fe_update_pure vals w) (encodeExt w st) =
      encodeExt w (l.foldl (fun st yx => stepMM vals st (yx.1 * w + yx.2)) st) := by
  intro l
  induction l with
  | nil => intro st _; rfl
  | cons yx t ih =>
    intro st hb
    simp only [List.foldl]
    rw [show fe_update_pure vals w (encodeExt w st) yx =
        encodeExt w (stepMM vals st (yx.1 * w + yx.2)) from
      fe_update_pure_encode vals w st yx.1 yx.2 (hb yx (List.mem_cons_self yx t)),
      ih _ (fun z hz => hb z (List.mem_cons_of_mem yx hz))]

theorem foldl_stepMin_spec (vals : List ℚ) :
    ∀ (n i : Nat) (p : ℚ × Nat),
      (List.foldl (stepMin vals) p (List.range' i n) = p ∧
        ∀ k, i ≤ k → k < i + n → p.1 ≤ vals.getD k 0) ∨
      (∃ j, i ≤ j ∧ j < i + n ∧
        List.foldl (stepMin vals) p (List.range' i n) = (vals.getD j 0, j) ∧
        vals.getD j 0 < p.1 ∧
        (∀ k, i ≤ k → k < j → vals.getD j 0 < vals.getD k 0) ∧
        (∀ k, i ≤ k → k < i + n → vals.getD j 0 ≤ vals.getD k 0)) := by
  intro n
  induction n with
  | zero =>
    intro i p
    left
    exact ⟨rfl, fun k hk1 hk2 => absurd hk2 (by omega)⟩
  | succ m ih =>
    intro i p
    have hstep : List.foldl (stepMin vals) p (List.range' i (m + 1)) =
        List.foldl (stepMin vals) (stepMin vals p i) (List.range' (i + 1) m) := rfl
    by_cases hv : vals.getD i 0 < p.1
    · have hsm : stepMin vals p i = (vals.getD i 0, i) := by
        unfold stepMin
        rw [if_pos hv]
      rcases ih (i + 1) (vals.getD i 0, i) with ⟨heq, hall⟩ | ⟨j, hj1, hj2, heq, hlt, hfst, hall⟩
      · right
        refine ⟨i, le_refl i, by omega, ?_, hv, fun k hk1 hk2 => absurd hk2 (by omega), ?_⟩
        · rw [hstep, hsm, heq]
        · intro k hk1 hk2
          rcases Nat.eq_or_lt_of_le hk1 with rfl | hk
          · exact le_refl _
          · exact hall k hk (by omega)
      · right
        refine ⟨j, by omega, by omega, ?_, ?_, ?_, ?_⟩
        · rw [hstep, hsm, heq]
        · exact hlt.trans hv
        · intro k hk1 hk2
          rcases Nat.eq_or_lt_of_le hk1 with rfl | hk
          · exact hlt
          · exact hfst k hk hk2
        · intro k hk1 hk2
          rcases Nat.eq_or_lt_of_le hk1 with rfl | hk
          · exact le_of_lt hlt
          · exact hall k hk (by omega)
    · have hsm : stepMin vals p i = p := by
        unfold stepMin
        rw [if_neg hv]
      push_neg at hv
      rcases ih (i + 1) p with ⟨heq, hall⟩ | ⟨j, hj1, hj2, heq, hlt, hfst, hall⟩
      · left
        refine ⟨by rw [hstep, hsm, heq], ?_⟩
        intro k hk1 hk2
        rcases Nat.eq_or_lt_of_le hk1 with rfl | hk
        · exact hv
        · exact hall k hk (by omega)
      · right
        refine ⟨j, by omega, by omega, by rw [hstep, hsm, heq], hlt, ?_, ?_⟩
        · intro k hk1 hk2
          rcases Nat.eq_or_lt_of_le hk1 with rfl | hk
          · exact hlt.trans_le hv
          · exact hfst k hk hk2
        · intro k hk1 hk2
          rcases Nat.eq_or_lt_of_le hk1 with rfl | hk
          · exact (hlt.trans_le hv).le
          · exact hall k hk (by omega)

theorem foldl_stepMax_spec (vals : List ℚ) :
    ∀ (n i : Nat) (p : ℚ × Nat),
      (List.foldl (stepMax vals) p (List.range' i n) = p ∧
        ∀ k, i ≤ k → k < i + n → vals.getD k 0 ≤ p.1) ∨
      (∃ j, i ≤ j ∧ j < i + n ∧
        List.foldl (stepMax vals) p (List.range' i n) = (vals.getD j 0, j) ∧
        p.1 < vals.getD j 0 ∧
        (∀ k, i ≤ k → k < j → vals.getD k 0 < vals.getD j 0) ∧
        (∀ k, i ≤ k → k < i + n → vals.getD k 0 ≤ vals.getD j 0)) := by
  intro n
  induction n with
  | zero =>
    intro i p
    left
    exact ⟨rfl, fun k hk1 hk2 => absurd hk2 (by omega)⟩
  | succ m ih =>
    intro i p
    have hstep : List.foldl (stepMax vals) p (List.range' i (m + 1)) =
        List.foldl (stepMax vals) (stepMax vals p i) (List.range' (i + 1) m) := rfl
    by_cases hv : p.1 < vals.getD i 0
    · have hsm : stepMax vals p i = (vals.getD i 0, i) := by
        unfold stepMax
        rw [if_pos hv]
      rcases ih (i + 1) (vals.getD i 0, i) with ⟨heq, hall⟩ | ⟨j, hj1, hj2, heq, hlt, hfst, hall⟩
      · right
        refine ⟨i, le_refl i, by omega, ?_, hv, fun k hk1 hk2 => absurd hk2 (by omega), ?_⟩
        · rw [hstep, hsm, heq]
        · intro k hk1 hk2
          rcases Nat.eq_or_lt_of_le hk1 with rfl | hk
          · exact le_refl _
          · exact hall k hk (by omega)
      · right
        refine ⟨j, by omega, by omega, ?_, hv.trans hlt, ?_, ?_⟩
        · rw [hstep, hsm, heq]
        · intro k hk1 hk2
          rcases Nat.eq_or_lt_of_le hk1 with rfl | hk
          · exact hlt
          · exact hfst k hk hk2
        · intro k hk1 hk2
          rcases Nat.eq_or_lt_of_le hk1 with rfl | hk
          · exact le_of_lt hlt
          · exact hall k hk (by omega)
    · have hsm : stepMax vals p i = p := by
        unfold stepMax
        rw [if_neg hv]
      push_neg at hv
      rcases ih (i + 1) p with ⟨heq, hall⟩ | ⟨j, hj1, hj2, heq, hlt, hfst, hall⟩
      · left
        refine ⟨by rw [hstep, hsm, heq], ?_⟩
        intro k hk1 hk2
        rcases Nat.eq_or_lt_of_le hk1 with rfl | hk
        · exact hv
        · exact hall k hk (by omega)
      · right
        refine ⟨j, by omega, by omega, by rw [hstep, hsm, heq], hlt, ?_, ?_⟩
        · intro k hk1 hk2
          rcases Nat.eq_or_lt_of_le hk1 with rfl | hk
          · exact hv.trans_lt hlt
          · exact hfst k hk hk2
        · intro k hk1 hk2
          rcases Nat.eq_or_lt_of_le hk1 with rfl | hk
          · exact (hv.trans_lt hlt).le
          · exact hall k hk (by omega)

/-- C7 (amended): for every surface of comparable samples — data is `some` of
a rational list of length width × height, both dimensions positive, and every
sample a finite `f32` value (between `-f32::MAX` and `f32::MAX`) —
`find_extremes` returns the minimum and the maximum sample value, each paired
with the row-major-first-occurrence location `(j mod width, j div width)` of
its flat index `j`: every earlier scan position holds a strictly worse value,
and no position holds a better one. -/
theorem c7_find_extremes_minmax (input : Image) (vals : List ℚ)
    (hdata : input.data = vals.map some)
    (hlen : vals.length = input.width * input.height)
    (hw : 0 < input.width) (hh : 0 < input.height)
    (hbound : ∀ v ∈ vals, -f32_maxQ ≤ v ∧ v ≤ f32_maxQ) :
    ∃ e, find_extremes input = some e ∧
      (∃ m j, e.min_value = some m ∧ j < vals.length ∧ vals.getD j 0 = m ∧
        e.min_value_location = (j % input.width, j / input.width) ∧
        (∀ k, k < vals.length → m ≤ vals.getD k 0) ∧
        (∀ k, k < j → m < vals.getD k 0)) ∧
      (∃ m j, e.max_value = some m ∧ j < vals.length ∧ vals.getD j 0 = m ∧
        e.max_value_location = (j % input.width, j / input.width) ∧
        (∀ k, k < vals.length → vals.getD k 0 ≤ m) ∧
        (∀ k, k < j → vals.getD k 0 < m)) := by
  have hcomm : input.height * input.width = vals.length := by
    rw [hlen, Nat.mul_comm]
  have hpos : 0 < vals.length := by
    rw [hlen]
    exact Nat.mul_pos hw hh
  have h1 := nested_foldlM_find input vals hdata (by omega)
  rw [nested_foldl_eq_pairRows (fe_update_pure vals input.width) input.width] at h1
  have henc : feInit = encodeExt input.width ((f32_maxQ, 0), (-f32_maxQ, 0)) := by
    simp [feInit, encodeExt, f32_max, f32_min]
  rw [henc] at h1
  rw [pairRows_foldl_encode vals input.width _ _
    (fun yx hyx => (pairRows_mem input.width _ yx hyx).2)] at h1
  have hmapfold : (pairRows input.width (List.range input.height)).foldl
      (fun st yx => stepMM vals st (yx.1 * input.width + yx.2))
      ((f32_maxQ, 0), (-f32_maxQ, 0)) =
      (List.range (input.height * input.width)).foldl (stepMM vals)
      ((f32_maxQ, 0), (-f32_maxQ, 0)) := by
    rw [← pairRows_map_toIdx input.width input.height, List.foldl_map]
  rw [hmapfold, foldl_stepMM, List.range_eq_range'] at h1
  refine ⟨_, h1, ?_, ?_⟩
  · rcases foldl_stepMin_spec vals (input.height * input.width) 0 (f32_maxQ, 0) with
      ⟨heq, hall⟩ | ⟨j, hj0, hjlt, heq, hlt, hfst, hall⟩
    · refine ⟨f32_maxQ, 0, by simp [encodeExt, heq], hpos, ?_,
        by simp [encodeExt, heq], ?_, fun k hk => absurd hk (by omega)⟩
      · have hb := (hbound _ (getD_mem_of_lt vals 0 hpos)).2
        have hg := hall 0 (le_refl 0) (by omega)
        exact le_antisymm hb hg
      · intro k hk
        exact hall k (Nat.zero_le k) (by omega)
    · refine ⟨vals.getD j 0, j, by simp [encodeExt, heq], by omega, rfl,
        by simp [encodeExt, heq], ?_, fun k hk => hfst k (Nat.zero_le k) hk⟩
      intro k hk
      exact hall k (Nat.zero_le k) (by omega)
  · rcases foldl_stepMax_spec vals (input.height * input.width) 0 (-f32_maxQ, 0) with
      ⟨heq, hall⟩ | ⟨j, hj0, hjlt, heq, hlt, hfst, hall⟩
    · refine ⟨-f32_maxQ, 0, by simp [encodeExt, heq], hpos, ?_,
        by simp [encodeExt, heq], ?_, fun k hk => absurd hk (by omega)⟩
      · have hb := (hbound _ (getD_mem_of_lt vals 0 hpos)).1
        have hg := hall 0 (le_refl 0) (by omega)
        exact le_antisymm hg hb
      · intro k hk
        exact hall k (Nat.zero_le k) (by omega)
    · refine ⟨vals.getD j 0, j, by simp [encodeExt, heq], by omega, rfl,
        by simp [encodeExt, heq], ?_, fun k hk => hfst k (Nat.zero_le k) hk⟩
      intro k hk
      exact hall k (Nat.zero_le k) (by omega)

/-- C10: on every surface where no element wins a strict IEEE comparison
against the initial sentinels — in particular surfaces with zero width or
height, and all-NaN surfaces — `find_extremes` returns `f32::MAX` as minimum
and `f32::MIN` as maximum, both located at `(0, 0)`, without failing. -/
theorem c10_sentinels (input : Image)
    (hlen : input.width * input.height ≤ input.data.length)
    (hno : ∀ v ∈ input.data, f32_lt v f32_max = false ∧ f32_gt v f32_min = false) :
    find_extremes input = some feInit := by
  have hup : ∀ y x, y < input.height → x < input.width →
      fe_update input feInit (y, x) = some feInit := by
    intro y x hy hx
    unfold fe_update
    have hidx : y * input.width + x < input.data.length := by
      calc y * input.width + x < (y + 1) * input.width := by
            rw [Nat.succ_mul]
            omega
        _ ≤ input.height * input.width := Nat.mul_le_mul_right _ (by omega)
        _ = input.width * input.height := Nat.mul_comm _ _
        _ ≤ input.data.length := hlen
    obtain ⟨v, hv⟩ : ∃ v, input.data.get? (y * input.width + x) = some v := by
      rw [List.get?_eq_getElem?]
      exact ⟨_, List.getElem?_eq_getElem hidx⟩
    obtain ⟨hn1, hn2⟩ := hno v (List.get?_mem hv)
    have hn1' : f32_lt v feInit.min_value = false := hn1
    have hn2' : f32_gt v feInit.max_value = false := hn2
    simp only [hv, hn1', hn2']
    simp [hn1', hn2']
  have hinner : ∀ y, y < input.height → ∀ (xs : List Nat), (∀ x ∈ xs, x < input.width) →
      xs.foldlM (fun st x => fe_update input st (y, x)) feInit = some feInit := by
    intro y hy xs
    induction xs with
    | nil => intro _; rfl
    | cons x t ih =>
      intro hb
      have hx := hup y x hy (hb x (List.mem_cons_self x t))
      simp only [List.foldlM, hx, Option.some_bind]
      exact ih (fun z hz => hb z (List.mem_cons_of_mem x hz))
  have houter : ∀ (ys : List Nat), (∀ y ∈ ys, y < input.height) →
      ys.foldlM (fun st y => (List.range input.width).foldlM
        (fun st x => fe_update input st (y, x)) st) feInit = some feInit := by
    intro ys
    induction ys with
    | nil => intro _; rfl
    | cons y t ih =>
      intro hb
      have hy := hinner y (hb y (List.mem_cons_self y t)) (List.range input.width)
        (fun x hx => List.mem_range.mp hx)
      simp only [List.foldlM, hy, Option.some_bind]
      exact ih (fun z hz => hb z (List.mem_cons_of_mem y hz))
  exact houter (List.range input.height) (fun y hy => List.mem_range.mp hy)

theorem c10_witness :
    ((⟨List.replicate 4 f32_nan, 2, 2⟩ : Image).width *
      (⟨List.replicate 4 f32_nan, 2, 2⟩ : Image).height ≤
      (⟨List.replicate 4 f32_nan, 2, 2⟩ : Image).data.length) ∧
    find_extremes ⟨List.replicate 4 f32_nan, 2, 2⟩ = some feInit :=
  ⟨by decide, c10_sentinels ⟨List.replicate 4 f32_nan, 2, 2⟩ (by decide) (by decide)⟩

/-- C7 (counterexample): on the 1×1 surface whose only sample is NaN (data
length equals width × height), `find_extremes` returns extremes that are not
sample values at all — min `f32::MAX` and max `f32::MIN` — so the claim that
it returns the minimum and maximum sample values at their first occurrence
fails on surfaces containing only NaN samples. -/
theorem c7_counterexample :
    (⟨[f32_nan], 1, 1⟩ : Image).data.length =
      (⟨[f32_nan], 1, 1⟩ : Image).width * (⟨[f32_nan], 1, 1⟩ : Image).height ∧
    ∃ e, find_extremes ⟨[f32_nan], 1, 1⟩ = some e ∧
      ∀ v ∈ (⟨[f32_nan], 1, 1⟩ : Image).data, e.min_value ≠ v ∧ e.max_value ≠ v := by
  exact ⟨by decide, feInit, by decide, by decide⟩

theorem c7_witness :
    (c7_example.data = c7_vals.map some) ∧
    (c7_vals.length = c7_example.width * c7_example.height) ∧
    (0 : Nat) < c7_example.width ∧ (0 : Nat) < c7_example.height ∧
    (∀ v ∈ c7_vals, -f32_maxQ ≤ v ∧ v ≤ f32_maxQ) ∧
    find_extremes c7_example = some ⟨some 0, some 9, (1, 2), (2, 0)⟩ ∧
    (∃ e, find_extremes c7_example = some e ∧
      (∃ m j, e.min_value = some m ∧ j < c7_vals.length ∧ c7_vals.getD j 0 = m ∧
        e.min_value_location = (j % c7_example.width, j / c7_example.width) ∧
        (∀ k, k < c7_vals.length → m ≤ c7_vals.getD k 0) ∧
        (∀ k, k < j → m < c7_vals.getD k 0)) ∧
      (∃ m j, e.max_value = some m ∧ j < c7_vals.length ∧ c7_vals.getD j 0 = m ∧
        e.max_value_location = (j % c7_example.width, j / c7_example.width) ∧
        (∀ k, k < c7_vals.length → c7_vals.getD k 0 ≤ m) ∧
        (∀ k, k < j → c7_vals.getD k 0 < m))) :=
  ⟨rfl, rfl, by decide, by decide, by decide, by decide,
    c7_find_extremes_minmax c7_example c7_vals rfl rfl (by decide) (by decide) (by decide)⟩
